import Mathlib

/-!
Shallow embedding of the `uci` package of `clfs/chess2`, a Go client for the
Universal Chess Interface protocol.

Modelling conventions:
* An input stream is a finite list of lines, as produced by `bufio.Scanner`
  over a closed reader: `Scan` returns `false` at end of input and `Err()`
  returns `nil` for a clean end of stream.
* Go errors built with `fmt.Errorf` carry no data that the code ever
  inspects, so fallible functions return `Except Unit`.
* Go `int` and `time.Duration` (an `int64` nanosecond count) are modelled as
  `Int`; values only ever stored after a successful `strconv.Atoi` cannot
  overflow, so no wrap-around modelling is needed.
* Only the ASCII cases of `unicode.IsSpace` are modelled; the protocol is
  7-bit ASCII and lines have already been split on newlines by the scanner.
-/

/-- The ASCII cases of Go's `unicode.IsSpace`, the separator class used by
`strings.Fields` / `bytes.Fields`. -/
def goIsSpace (c : Char) : Bool :=
  c = ' ' || c = '\t' || c = '\n' || c = '\x0b' || c = '\x0c' || c = '\r'

/-- Accumulator core of `strings.Fields`: split around runs of whitespace,
dropping empty fields. -/
def fieldsAux : List Char → List Char → List String
  | [], acc => if acc.isEmpty then [] else [String.mk acc.reverse]
  | c :: rest, acc =>
    if goIsSpace c then
      if acc.isEmpty then fieldsAux rest []
      else String.mk acc.reverse :: fieldsAux rest []
    else fieldsAux rest (c :: acc)

/-- Go's `strings.Fields` (`bytes.Fields` behaves identically on the byte
slices involved here). -/
def goFields (s : String) : List String := fieldsAux s.data []

/-- Go's `strings.HasPrefix`. -/
def goStartsWith (s pre : String) : Bool := pre.data.isPrefixOf s.data

/-- Go's `strings.TrimPrefix`. -/
def goTrimLead (s pre : String) : String :=
  if goStartsWith s pre then String.mk (s.data.drop pre.data.length) else s

/-- Helper for `goAtoi`: value of an all-digit character list (with
accumulator), `none` on the first non-digit. -/
def digitsVal : List Char → Nat → Option Nat
  | [], acc => some acc
  | c :: rest, acc =>
    if c.isDigit then digitsVal rest (acc * 10 + (c.toNat - '0'.toNat)) else none

/-- Go's `strconv.Atoi` on a 64-bit platform: an optional `+`/`-` sign
followed by at least one decimal digit, with the resulting value required to
fit in `int64`.  `none` models a non-nil error (`ErrSyntax` or `ErrRange`);
the Go code only ever distinguishes nil from non-nil. -/
def goAtoi (s : String) : Option Int :=
  match s.data with
  | [] => none
  | c :: rest =>
    let body := if c = '-' || c = '+' then rest else c :: rest
    match body with
    | [] => none
    | _ =>
      match digitsVal body 0 with
      | none => none
      | some n =>
        let v : Int := if c = '-' then -(n : Int) else (n : Int)
        if v < -(2 ^ 63) || 2 ^ 63 - 1 < v then none else some v

/-- The Go struct `uci.Option` of `option.go` (renamed: `Option` is Lean's
core option type).  `Min`/`Max` are Go `int`s, assigned only from a
successful `strconv.Atoi`. -/
structure UciOption where
  name : String
  type : String
  default : String
  min : Int
  max : Int
  vars : List String
deriving DecidableEq, Repr

/-- The zero value of `uci.Option` (`var opt Option` in Go). -/
def UciOption.zero : UciOption :=
  { name := "", type := "", default := "", min := 0, max := 0, vars := [] }

/-- The key/value walk of `Option.UnmarshalText` (`option.go`): the cursor
`pos` runs one token at a time over `fields[typeIdx .. len-2]`, and each
iteration inspects the pair `(fields[pos], fields[pos+1])`.  The list
argument is the suffix `fields[pos ..]`, so the walk inspects `(cur, nxt)`
and then recurses on the suffix starting at `nxt` — the token just consumed
as a value is re-examined as a key, exactly as in the source. -/
def optionWalk : List String → UciOption → Except Unit UciOption
  | cur :: nxt :: rest, o =>
    if cur = "type" then optionWalk (nxt :: rest) { o with type := nxt }
    else if cur = "default" then optionWalk (nxt :: rest) { o with default := nxt }
    else if cur = "min" then
      match goAtoi nxt with
      | none => .error ()
      | some v => optionWalk (nxt :: rest) { o with min := v }
    else if cur = "max" then
      match goAtoi nxt with
      | none => .error ()
      | some v => optionWalk (nxt :: rest) { o with max := v }
    else if cur = "var" then optionWalk (nxt :: rest) { o with vars := o.vars ++ [nxt] }
    else optionWalk (nxt :: rest) o
  | _, o => .ok o

/-- `Option.UnmarshalText` (`option.go`) applied to the whitespace-split
field list: fewer than 5 fields is an error; the first two fields must be
the literals `option` and `name`; the name is every following token up to
(excluding) the first literal `type`, re-joined with single spaces; from
that `type` token onward the key/value walk runs. -/
def unmarshalFields (l : List String) : Except Unit UciOption :=
  if l.length < 5 then .error ()
  else
    match l with
    | f0 :: f1 :: rest =>
      if f0 ≠ "option" then .error ()
      else if f1 ≠ "name" then .error ()
      else
        optionWalk (rest.dropWhile (fun t => t ≠ "type"))
          { UciOption.zero with
              name := String.intercalate " " (rest.takeWhile (fun t => t ≠ "type")) }
    | _ => .error ()

/-- `Option.UnmarshalText` (`option.go`). -/
def unmarshalText (text : String) : Except Unit UciOption :=
  unmarshalFields (goFields text)

/-- Client state accumulated by `Client.UCI`: the `Name`, `Author` and
`Options` fields of `uci.Client`. -/
structure ClientState where
  name : String
  author : String
  options : List UciOption
deriving DecidableEq, Repr

/-- The read loop of `Client.UCI` (identical control flow in the `client.go`
and `uci.go` revisions; option lines parsed per `option.go`): each line is
dispatched on the first matching case of `id name `, `id author `,
`option `, `uciok`; a malformed option line aborts with its error; `uciok`
breaks the loop and the function returns `s.Err()`, which is `nil`.  At end
of input the loop also falls through to `return s.Err()`, which is likewise
`nil` for a clean end of stream — so exhaustion of the input yields `.ok`. -/
def uciLoop : List String → ClientState → Except Unit ClientState
  | [], st => .ok st
  | line :: rest, st =>
    if goStartsWith line "id name " then
      uciLoop rest { st with name := goTrimLead line "id name " }
    else if goStartsWith line "id author " then
      uciLoop rest { st with author := goTrimLead line "id author " }
    else if goStartsWith line "option " then
      match unmarshalText line with
      | .error e => .error e
      | .ok opt => uciLoop rest { st with options := st.options ++ [opt] }
    else if line = "uciok" then .ok st
    else uciLoop rest st

/-- `Client.UCI` run against a finite input stream, starting from the zero
client state. -/
def clientUCI (lines : List String) : Except Unit ClientState :=
  uciLoop lines { name := "", author := "", options := [] }

/-- `Client.IsReady` run against a finite input stream: discard lines until
`readyok` (then return `nil`); at end of input return `s.Err()`, which is
`nil` for a clean end of stream — so exhaustion of the input yields `.ok`. -/
def isReadyRun : List String → Except Unit Unit
  | [] => .ok ()
  | line :: rest => if line = "readyok" then .ok () else isReadyRun rest

/-- The `Search` struct of part_000, parameters of the `go` command.
`time.Duration` fields are `int64` nanosecond counts, modelled as `Int`;
default values are the Go zero values. -/
structure Search where
  searchMoves : List String := []
  ponder : Bool := false
  infinite : Bool := false
  mate : Int := 0
  moveTime : Int := 0
  whiteTime : Int := 0
  blackTime : Int := 0
  whiteIncrement : Int := 0
  blackIncrement : Int := 0
  movesToGo : Int := 0
  depth : Int := 0
  nodes : Int := 0
deriving Repr

/-- `Search.String` (part_000).  `fmt.Fprintf` with verb `%d` on a
`time.Duration` prints the raw nanosecond count, and the `searchmoves`
fragment has no leading space — both exactly as in the source. -/
def searchString (s : Search) : String :=
  "go"
  ++ (if s.ponder then " ponder" else "")
  ++ (if s.infinite then " infinite" else "")
  ++ (if s.mate ≠ 0 then " mate " ++ toString s.mate else "")
  ++ (if s.moveTime ≠ 0 then " movetime " ++ toString s.moveTime else "")
  ++ (if s.whiteTime ≠ 0 then " wtime " ++ toString s.whiteTime else "")
  ++ (if s.blackTime ≠ 0 then " btime " ++ toString s.blackTime else "")
  ++ (if s.whiteIncrement ≠ 0 then " winc " ++ toString s.whiteIncrement else "")
  ++ (if s.blackIncrement ≠ 0 then " binc " ++ toString s.blackIncrement else "")
  ++ (if s.movesToGo ≠ 0 then " movestogo " ++ toString s.movesToGo else "")
  ++ (if s.depth ≠ 0 then " depth " ++ toString s.depth else "")
  ++ (if s.nodes ≠ 0 then " nodes " ++ toString s.nodes else "")
  ++ (if s.searchMoves.length > 0 then "searchmoves " ++ String.intercalate " " s.searchMoves
      else "")

/-- The `GoParameters` struct of `client.go` (field-for-field the same shape
as part_000's `Search`). -/
structure GoParameters where
  searchMoves : List String := []
  ponder : Bool := false
  infinite : Bool := false
  mate : Int := 0
  moveTime : Int := 0
  whiteTime : Int := 0
  blackTime : Int := 0
  whiteIncrement : Int := 0
  blackIncrement : Int := 0
  movesToGo : Int := 0
  depth : Int := 0
  nodes : Int := 0
deriving Repr

/-- The text written by `Client.Go` (`client.go`).  `Duration.Milliseconds()`
is the nanosecond count divided by 10^6, truncated toward zero; under the
`> 0` guard the operand is positive, where Lean's `Int` division agrees with
Go's. -/
def clientGoLine (p : GoParameters) : String :=
  "go"
  ++ (if p.ponder then " ponder" else "")
  ++ (if p.infinite then " infinite" else "")
  ++ (if p.mate > 0 then " mate " ++ toString p.mate else "")
  ++ (if p.moveTime > 0 then " movetime " ++ toString (p.moveTime / 1000000) else "")
  ++ (if p.whiteTime > 0 then " wtime " ++ toString (p.whiteTime / 1000000) else "")
  ++ (if p.blackTime > 0 then " btime " ++ toString (p.blackTime / 1000000) else "")
  ++ (if p.whiteIncrement > 0 then " winc " ++ toString (p.whiteIncrement / 1000000) else "")
  ++ (if p.blackIncrement > 0 then " binc " ++ toString (p.blackIncrement / 1000000) else "")
  ++ (if p.movesToGo > 0 then " movestogo " ++ toString p.movesToGo else "")
  ++ (if p.depth > 0 then " depth " ++ toString p.depth else "")
  ++ (if p.nodes > 0 then " nodes " ++ toString p.nodes else "")
  ++ (if p.searchMoves.length > 0 then " searchmoves " ++ String.intercalate " " p.searchMoves
      else "")

/-- The bytes written by `Client.PositionFEN` (identical in `client.go` and
part_000). -/
def positionFEN (fen : String) (moves : List String) : String :=
  "position fen " ++ fen
  ++ (if moves.length > 0 then " moves " ++ String.intercalate " " moves else "")
  ++ "\n"

/-- The bytes written by `Client.PositionStartPos` (identical in `client.go`
and part_000).  The first fragment is written with `fmt.Fprintln`, which
appends a newline of its own, exactly as in the source. -/
def positionStartPos (moves : List String) : String :=
  "position startpos\n"
  ++ (if moves.length > 0 then " moves " ++ String.intercalate " " moves else "")
  ++ "\n"

/-- Number of newline bytes in an output, i.e. the number of protocol lines
it spans. -/
def newlineCount (s : String) : Nat := s.data.count '\n'

/-- The lines written by `Client.Debug` in the `client.go`/part_000
revisions: the `if on` branch has no `else`, so `debug off` is written
unconditionally, exactly as in the source. -/
def debugClient (flag : Bool) : List String :=
  (if flag then ["debug on"] else []) ++ ["debug off"]

/-- The line written by `Client.Debug` in the `uci.go` revision (early
return inside the `if`). -/
def debugUci (flag : Bool) : String :=
  if flag then "debug on" else "debug off"

/-- The read loop of part_000's `Client.Go`: it runs synchronously in the
caller before `Go` returns, consuming lines until one is *exactly* the
string `bestmove` (a real `bestmove <move>` line never matches); returns
the unread remainder of the stream. -/
def goScanDrain : List String → List String
  | [] => []
  | line :: rest => if line = "bestmove" then rest else goScanDrain rest

/-- part_000's `Client.Go` against a finite input stream.  The function
makes two fresh unbuffered channels `infoCh`/`bestCh`, runs the scan loop,
and returns the channels; nothing is ever sent on either channel and
neither is closed.  Result components: (values sent on the `Info` channel,
value sent on the `BestMove` channel, unread lines of the stream).  Since
no value of either payload type is ever constructed, payloads are modelled
as `String` without loss. -/
def goChannelEvents (lines : List String) : List String × Option String × List String :=
  (([] : List String), (none : Option String), goScanDrain lines)

/-- Condition following the spec's words for claim C5: the spec-side
characterization of a `min`/`max` key whose value token fails integer
parsing.  A "key" is a token examined by the key/value walk, i.e. any token
of the walked region paired with its successor. -/
def hasBadMinMax : List String → Bool
  | cur :: nxt :: rest =>
    ((cur == "min" || cur == "max") && (goAtoi nxt).isNone) || hasBadMinMax (nxt :: rest)
  | _ => false

/-- `MalformedOption` following the spec's words (claim C5): the line does
not begin with the two fixed tokens `option name`, or fewer than 5
whitespace-separated tokens are present, or the value token following a
`min`/`max` key (in the region walked from the first `type` token onward)
is not an integer accepted by `strconv.Atoi`. -/
def specMalformedOption (s : String) : Bool :=
  let l := goFields s
  (decide (l.take 2 ≠ ["option", "name"])) || (decide (l.length < 5))
    || hasBadMinMax ((l.drop 2).dropWhile (fun t => t ≠ "type"))

example : goFields "option name Move Overhead type spin default 10 min 0 max 5000"
    = ["option", "name", "Move", "Overhead", "type", "spin", "default", "10",
       "min", "0", "max", "5000"] := rfl

example : goAtoi "5000" = some 5000 := rfl

example : goAtoi "-17" = some (-17) := rfl

example : goAtoi "x0" = none := rfl

example : unmarshalText "option name Clear Hash type button"
    = .ok { name := "Clear Hash", type := "button", default := "",
            min := 0, max := 0, vars := [] } := rfl

example : unmarshalText "opt name X type spin min 0" = .error () := rfl

example : unmarshalText "option name HistoryFill type combo default fen_only var no var fen_only var always"
    = .ok { name := "HistoryFill", type := "combo", default := "fen_only",
            min := 0, max := 0, vars := ["no", "fen_only", "always"] } := rfl

/-- The key/value walk never touches the `Name` field. -/
theorem optionWalk_name (l : List String) :
    ∀ o o' : UciOption, optionWalk l o = .ok o' → o'.name = o.name := by
  induction l with
  | nil =>
    intro o o' h
    simp [optionWalk] at h
    rw [← h]
  | cons a t ih =>
    intro o o' h
    cases t with
    | nil =>
      simp [optionWalk] at h
      rw [← h]
    | cons b r =>
      simp only [optionWalk] at h
      by_cases h1 : a = "type"
      · rw [if_pos h1] at h
        have := ih _ _ h
        exact this
      · rw [if_neg h1] at h
        by_cases h2 : a = "default"
        · rw [if_pos h2] at h
          have := ih _ _ h
          exact this
        · rw [if_neg h2] at h
          by_cases h3 : a = "min"
          · rw [if_pos h3] at h
            cases hA : goAtoi b with
            | none => rw [hA] at h; exact absurd h (by simp)
            | some v =>
              rw [hA] at h
              have := ih _ _ h
              exact this
          · rw [if_neg h3] at h
            by_cases h4 : a = "max"
            · rw [if_pos h4] at h
              cases hA : goAtoi b with
              | none => rw [hA] at h; exact absurd h (by simp)
              | some v =>
                rw [hA] at h
                have := ih _ _ h
                exact this
            · rw [if_neg h4] at h
              by_cases h5 : a = "var"
              · rw [if_pos h5] at h
                have := ih _ _ h
                exact this
              · rw [if_neg h5] at h
                have := ih _ _ h
                exact this

/-- The walk succeeds exactly when no examined `min`/`max` key has a value
token rejected by `strconv.Atoi`. -/
theorem optionWalk_isOk (l : List String) :
    ∀ o : UciOption, (optionWalk l o).isOk = !hasBadMinMax l := by
  induction l with
  | nil => intro o; rfl
  | cons a t ih =>
    intro o
    cases t with
    | nil => rfl
    | cons b r =>
      simp only [optionWalk, hasBadMinMax]
      by_cases h1 : a = "type"
      · subst h1; simp [ih]
      · by_cases h2 : a = "default"
        · subst h2; simp [ih]
        · by_cases h3 : a = "min"
          · subst h3
            cases hA : goAtoi b with
            | none => simp [hA, Except.isOk, Except.toBool]
            | some v => simp [hA, ih]
          · by_cases h4 : a = "max"
            · subst h4
              cases hA : goAtoi b with
              | none => simp [hA, Except.isOk, Except.toBool]
              | some v => simp [hA, ih]
            · by_cases h5 : a = "var"
              · subst h5; simp [ih]
              · simp [h1, h2, h3, h4, h5, ih]

/-- `Option.UnmarshalText` succeeds exactly when the field list is long
enough, starts with the two fixed tokens, and the walked region has no
`min`/`max` key with a non-integer value token. -/
theorem unmarshalFields_isOk (l : List String) :
    (unmarshalFields l).isOk =
      !((decide (l.take 2 ≠ ["option", "name"])) || (decide (l.length < 5))
        || hasBadMinMax ((l.drop 2).dropWhile (fun t => t ≠ "type"))) := by
  by_cases hlen : l.length < 5
  · simp [unmarshalFields, hlen, Except.isOk, Except.toBool]
  · cases l with
    | nil => simp at hlen
    | cons f0 t =>
      cases t with
      | nil => simp at hlen
      | cons f1 rest =>
        simp only [List.length_cons] at hlen
        by_cases hf0 : f0 = "option"
        · by_cases hf1 : f1 = "name"
          · subst hf0; subst hf1
            simp [unmarshalFields, hlen, optionWalk_isOk]
          · simp [unmarshalFields, hlen, hf1, Except.isOk, Except.toBool]
        · simp [unmarshalFields, hlen, hf0, Except.isOk, Except.toBool]

/-- On success, the parsed option's name is the space-join of the tokens
between the fixed prelude and the first `type` token. -/
theorem unmarshalFields_name (l : List String) (o : UciOption)
    (h : unmarshalFields l = .ok o) :
    o.name = String.intercalate " " ((l.drop 2).takeWhile (fun t => t ≠ "type")) := by
  by_cases hlen : l.length < 5
  · simp [unmarshalFields, hlen] at h
  · cases l with
    | nil => simp at hlen
    | cons f0 t =>
      cases t with
      | nil => simp at hlen
      | cons f1 rest =>
        simp only [unmarshalFields, hlen, if_false, reduceIte] at h
        by_cases hf0 : f0 = "option"
        · by_cases hf1 : f1 = "name"
          · subst hf0; subst hf1
            simp only [ne_eq, not_true_eq_false, if_false, reduceIte] at h
            have := optionWalk_name _ _ _ h
            simpa using this
          · simp [hf1] at h
        · simp [hf0] at h

/-- A line of the form `option <t>` begins with `option `. -/
theorem goStartsWith_optionAppend (t : String) :
    goStartsWith ("option " ++ t) "option " = true := by
  unfold goStartsWith
  rw [String.data_append]
  simp [List.isPrefixOf_iff_prefix]

/-- A line of the form `option <t>` does not begin with `id name `. -/
theorem optionAppend_not_idname (t : String) :
    goStartsWith ("option " ++ t) "id name " = false := by
  unfold goStartsWith
  rw [String.data_append]
  rfl

/-- A line of the form `option <t>` does not begin with `id author `. -/
theorem optionAppend_not_idauthor (t : String) :
    goStartsWith ("option " ++ t) "id author " = false := by
  unfold goStartsWith
  rw [String.data_append]
  rfl

/-- Claim C1.  Evaluating part_000's `Client.Go` on a stream of two `info`
lines followed by one `bestmove` line: the function delivers zero `Info`
events (not two), resolves no `BestMove` result at all, and its scan loop —
whose break condition compares the whole line to `bestmove`, which a real
`bestmove e2e4` line never matches — drains the entire stream.  This refutes
the claimed guarantee that the info sequence yields exactly N items before a
single result resolves. -/
theorem c1_go_search_delivers_nothing :
    goChannelEvents ["info depth 1", "info depth 2", "bestmove e2e4"]
      = (([] : List String), (none : Option String), ([] : List String)) := rfl

/-- Claim C2.  Evaluating the blocked calls on streams that end before the
expected terminal token: `Client.UCI` on a stream that ends before `uciok`
returns `nil` (success, because `bufio.Scanner.Err` is `nil` at a clean end
of input), and `Client.IsReady` on an empty stream likewise returns `nil` —
neither fails with an `UnexpectedEndOfStream` error as the claim requires. -/
theorem c2_truncation_returns_success :
    clientUCI ["id name X"] = .ok { name := "X", author := "", options := [] }
    ∧ isReadyRun [] = .ok () := by
  constructor
  · rfl
  · rfl

/-- Claim C3, counterexample.  A handshake stream declaring the option name
`A` twice yields an option list in which `A` appears twice — not exactly
once — with the earlier declaration still present before the later one. -/
theorem c3_duplicate_name_kept_twice :
    clientUCI ["option name A type check default true",
               "option name A type check default false", "uciok"]
        = .ok { name := "", author := "",
                options := [{ name := "A", type := "check", default := "true",
                              min := 0, max := 0, vars := [] },
                            { name := "A", type := "check", default := "false",
                              min := 0, max := 0, vars := [] }] }
    ∧ (([{ name := "A", type := "check", default := "true",
           min := 0, max := 0, vars := [] },
         { name := "A", type := "check", default := "false",
           min := 0, max := 0, vars := [] }] : List UciOption).map UciOption.name).count "A"
        ≠ 1 := by
  constructor
  · rfl
  · decide

/-- Claim C3, amended.  For every handshake stream made of two option
declarations with the same parsed name followed by `uciok`, the session's
option list records both declarations in encounter order — the name appears
twice and the later declaration is appended after (not overwriting) the
earlier one. -/
theorem c3_option_redeclaration_appends (t1 t2 : String) (o1 o2 : UciOption)
    (h1 : unmarshalText ("option " ++ t1) = .ok o1)
    (h2 : unmarshalText ("option " ++ t2) = .ok o2)
    (hn : o1.name = o2.name) :
    clientUCI ["option " ++ t1, "option " ++ t2, "uciok"]
        = .ok { name := "", author := "", options := [o1, o2] }
    ∧ (([o1, o2].map UciOption.name).count o2.name) = 2 := by
  constructor
  · have p1 := goStartsWith_optionAppend t1
    have p2 := goStartsWith_optionAppend t2
    have q1 := optionAppend_not_idname t1
    have q2 := optionAppend_not_idname t2
    have r1 := optionAppend_not_idauthor t1
    have r2 := optionAppend_not_idauthor t2
    have u1 : goStartsWith "uciok" "id name " = false := rfl
    have u2 : goStartsWith "uciok" "id author " = false := rfl
    have u3 : goStartsWith "uciok" "option " = false := rfl
    simp [clientUCI, uciLoop, p1, p2, q1, q2, r1, r2, u1, u2, u3, h1, h2]
  · simp [hn, List.count_cons]

/-- Witness for the amended claim C3, at the concrete duplicate-`A` input. -/
theorem c3_option_redeclaration_appends_witness :
    clientUCI ["option " ++ "name A type check default true",
               "option " ++ "name A type check default false", "uciok"]
        = .ok { name := "", author := "",
                options := [{ name := "A", type := "check", default := "true",
                              min := 0, max := 0, vars := [] },
                            { name := "A", type := "check", default := "false",
                              min := 0, max := 0, vars := [] }] }
    ∧ (([({ name := "A", type := "check", default := "true",
            min := 0, max := 0, vars := [] } : UciOption),
         ({ name := "A", type := "check", default := "false",
            min := 0, max := 0, vars := [] } : UciOption)].map UciOption.name).count
          ({ name := "A", type := "check", default := "false",
             min := 0, max := 0, vars := [] } : UciOption).name) = 2 :=
  c3_option_redeclaration_appends _ _ _ _ rfl rfl rfl

/-- Claim C4.  Option parsing accumulates every token after `name` up to
(but excluding) the first literal token `type`, re-joined with single
spaces, as the option name; and the input
`option name Move Overhead type spin default 10 min 0 max 5000` parses to
name `Move Overhead`, kind `spin`, default `10`, min 0, max 5000. -/
theorem c4_name_accumulation :
    (∀ s o, unmarshalText s = .ok o →
        o.name = String.intercalate " "
          (((goFields s).drop 2).takeWhile (fun t => t ≠ "type")))
    ∧ unmarshalText "option name Move Overhead type spin default 10 min 0 max 5000"
        = .ok { name := "Move Overhead", type := "spin", default := "10",
                min := 0, max := 5000, vars := [] } := by
  constructor
  · intro s o h
    exact unmarshalFields_name (goFields s) o h
  · rfl

/-- Witness for claim C4, at the `Move Overhead` input. -/
theorem c4_name_accumulation_witness :
    ({ name := "Move Overhead", type := "spin", default := "10",
       min := 0, max := 5000, vars := [] } : UciOption).name
      = String.intercalate " "
          (((goFields "option name Move Overhead type spin default 10 min 0 max 5000").drop
              2).takeWhile (fun t => t ≠ "type")) :=
  c4_name_accumulation.1 _ _ rfl

/-- Claim C5.  `Option.UnmarshalText` fails exactly when the line does not
begin with the two fixed tokens `option name`, or fewer than 5
whitespace-separated tokens are present, or the value token following a
`min`/`max` key is rejected by `strconv.Atoi`; on every other input it
succeeds. -/
theorem c5_malformed_iff (s : String) :
    (unmarshalText s).isOk = false ↔ specMalformedOption s = true := by
  have h : (unmarshalText s).isOk = !(specMalformedOption s) :=
    unmarshalFields_isOk (goFields s)
  rw [h]
  cases hb : specMalformedOption s <;> simp

/-- Witness for claim C5, at a concrete input with a non-integer `min`
value. -/
theorem c5_malformed_iff_witness :
    specMalformedOption "option name Hash type spin min x max 2" = true :=
  (c5_malformed_iff "option name Hash type spin min x max 2").mp rfl

/-- Claim C6.  Evaluating the `go` serializers: part_000's `Search.String`
omits the space before `searchmoves`, so re-tokenizing its output fuses the
previous field's value with the `searchmoves` token (`3searchmoves`) — the
present fields do not come back as the claimed token sequence.  The
`client.go` revision (`Client.Go`) emits the space and does satisfy the
claimed order at this input. -/
theorem c6_searchmoves_missing_space :
    searchString { depth := 3, searchMoves := ["e2e4"] }
      = "go depth 3searchmoves e2e4"
    ∧ goFields (searchString { depth := 3, searchMoves := ["e2e4"] })
      = ["go", "depth", "3searchmoves", "e2e4"]
    ∧ clientGoLine { depth := 3, searchMoves := ["e2e4"] }
      = "go depth 3 searchmoves e2e4" := by
  refine ⟨rfl, rfl, rfl⟩

/-- Claim C7.  Evaluating the serializers on a one-second `movetime`:
part_000's `Search.String` prints the raw nanosecond count (1000000000),
contradicting the claim and its own doc comment, while `client.go`'s
`Client.Go` prints the truncated millisecond count (1000) as claimed. -/
theorem c7_duration_printed_in_nanoseconds :
    searchString { moveTime := 1000000000 } = "go movetime 1000000000"
    ∧ clientGoLine { moveTime := 1000000000 } = "go movetime 1000" := by
  refine ⟨rfl, rfl⟩

/-- Claim C8.  Evaluating the position serializers: `PositionStartPos`
writes its marker with `Fprintln`, so the moves suffix lands on a second
protocol line (two newlines in the output, even a trailing empty line when
no moves are given), while `PositionFEN` writes the single line the claim
describes. -/
theorem c8_startpos_writes_two_lines :
    positionStartPos ["e2e4"] = "position startpos\n moves e2e4\n"
    ∧ newlineCount (positionStartPos ["e2e4"]) = 2
    ∧ positionStartPos [] = "position startpos\n\n"
    ∧ positionFEN "K7/8/8/8/8/8/8/k7 w - - 0 1" ["a1b1"]
        = "position fen K7/8/8/8/8/8/8/k7 w - - 0 1 moves a1b1\n"
    ∧ newlineCount (positionFEN "K7/8/8/8/8/8/8/k7 w - - 0 1" ["a1b1"]) = 1 := by
  refine ⟨rfl, rfl, rfl, rfl, rfl⟩

/-- Claim C9.  Evaluating `Client.Debug`: the `client.go`/part_000 revision
writes BOTH `debug on` and `debug off` when the argument is true (its `if`
has no `else`), refuting "exactly one fixed literal line ... never both";
the `uci.go` revision writes the single claimed line. -/
theorem c9_debug_writes_both_lines :
    debugClient true = ["debug on", "debug off"]
    ∧ debugClient false = ["debug off"]
    ∧ debugUci true = "debug on"
    ∧ debugUci false = "debug off" := by
  refine ⟨rfl, rfl, rfl, rfl⟩

/-- Claim C10.  In the key/value walk the cursor advances one token per
iteration, so a token consumed as a value is re-examined as a key: on
`option name X type combo default var var a` the token `var` (the value of
`default`) is re-read as a `var` key, and the allowed-values list comes out
as `["var", "a"]`, not `["a"]`. -/
theorem c10_value_token_reexamined_as_key :
    unmarshalText "option name X type combo default var var a"
      = .ok { name := "X", type := "combo", default := "var",
              min := 0, max := 0, vars := ["var", "a"] }
    ∧ (["var", "a"] : List String) ≠ ["a"] := by
  refine ⟨rfl, by decide⟩
